import Mathlib

/-!
Verification of the Presence & Signaling Coordination Subsystem of the
private-network-registry server.

The definitions below are a shallow embedding of the TypeScript sources:

* `src/services/signalingServer.ts` — WebRTC signaling relay
  (message validation, network authorization, channel persistence,
  in-memory live-connection map);
* `src/services/backgroundJobs.ts` — presence sweep, coordinator
  election, signaling-channel cleanup;
* `src/routes/p2p.ts` — presence announcement upsert and the
  pull-style message drain endpoint;
* the Mongoose schemas for `Device` and `SignalingChannel`
  (TTL indexes, bounded-message pre-save hook).

Timestamps are modelled as `Int` milliseconds; the MongoDB document
stores are modelled as Lean lists kept in insertion order, with
`findOneAndUpdate` rendered as update-first-match-or-append and
`updateMany` as a map over all matching documents.
-/

/-- Update the first element satisfying `p` (the semantics of Mongo's
`findOneAndUpdate` on a list kept in natural order); all other
elements are untouched. -/
def updateFirstWhere (p : α → Bool) (f : α → α) : List α → List α
  | [] => []
  | a :: as => if p a then f a :: as else a :: updateFirstWhere p f as

/-- Mongo `$addToSet`: append the value only when it is not already
present. -/
def addToSet (l : List String) (x : String) : List String :=
  if l.contains x then l else l ++ [x]

/-- Lexicographic comparison of character lists by code point — the
comparison JavaScript's default `Array.prototype.sort` applies to
strings in `generateChannelId`. -/
def charListLt : List Char → List Char → Bool
  | [], [] => false
  | [], _ :: _ => true
  | _ :: _, [] => false
  | a :: as, b :: bs =>
    if a.val < b.val then true
    else if b.val < a.val then false
    else charListLt as bs

/-- Device presence record (Mongoose `deviceSchema` in the models
file). `expiresAt` carries the schema's TTL index
(`expireAfterSeconds: 0`). -/
structure Device where
  deviceId : String
  userId : String
  networkId : String
  signalAddress : String
  capabilities : List String
  isCoordinator : Bool
  lastSeen : Int
  isOnline : Bool
  expiresAt : Int
  createdAt : Int
deriving DecidableEq

/-- A stored signaling message (`signalingMessageSchema`); the source
field `from` is spelled `from'` because `from` is reserved in Lean. -/
structure SigMessage where
  type : String
  from' : String
  to' : String
  data : String
  timestamp : Int
deriving DecidableEq

/-- A signaling channel record (`signalingChannelSchema`): the mailbox
between exactly two device identifiers. -/
structure SignalingChannel where
  channelId : String
  participants : List String
  messages : List SigMessage
  createdAt : Int
  expiresAt : Int
deriving DecidableEq

/-- Inbound WebSocket payload of `handleSignalingMessage`
(`SignalingMessage` in signalingServer.ts); the opaque `data` payload
is modelled as a string whose JavaScript truthiness is non-emptiness. -/
structure SignalingMessage where
  type : String
  toPeerId : String
  data : String
deriving DecidableEq

/-- Outcomes of the throw sites inside `handleSignalingMessage`, in
source order. -/
inductive SigError where
  | invalidStructure
  | invalidDeviceId
  | deviceNotFound
  | notSameNetwork
deriving DecidableEq

/-- Character class of the device-id pattern `[a-zA-Z0-9_]`. -/
def isWordChar (c : Char) : Bool := c.isAlphanum || c == '_'

/-- `isValidDeviceId` from signalingServer.ts: the regular expression
`^peer_[a-zA-Z0-9_]+$`. -/
def isValidDeviceId (s : String) : Bool :=
  match s.data with
  | 'p' :: 'e' :: 'e' :: 'r' :: '_' :: rest => !rest.isEmpty && rest.all isWordChar
  | _ => false

/-- `generateChannelId` from signalingServer.ts: sort the two device
ids (JavaScript default string sort) and join them with an
underscore. -/
def generateChannelId (deviceId1 deviceId2 : String) : String :=
  if charListLt deviceId2.data deviceId1.data then deviceId2 ++ "_" ++ deviceId1
  else deviceId1 ++ "_" ++ deviceId2

/-- Push of one message onto a channel document (`$push` of the
channel upsert). -/
def appendMsgToChannel (m : SigMessage) (c : SignalingChannel) : SignalingChannel :=
  { c with messages := c.messages ++ [m] }

/-- The `SignalingChannel.findOneAndUpdate` call of
`handleSignalingMessage`: `$push` the message onto the first channel
with this `channelId`, or insert a fresh channel whose `expiresAt` is
one hour from now (`$setOnInsert`). Note that `expiresAt` appears
only in the insert branch. -/
def channelUpsert (channels : List SignalingChannel) (channelId : String) (m : SigMessage)
    (fromId toId : String) (now : Int) : List SignalingChannel :=
  if channels.any (fun c => c.channelId == channelId) then
    updateFirstWhere (fun c => c.channelId == channelId) (appendMsgToChannel m) channels
  else
    channels ++ [{ channelId := channelId
                   participants := [fromId, toId]
                   messages := [m]
                   createdAt := now
                   expiresAt := now + 3600000 }]

/-- `handleSignalingMessage` from signalingServer.ts, restricted to
its store effects: structure validation, device-id format check,
sender/destination lookup, same-network authorization, and the channel
upsert. Returns the error (if any) together with the resulting
channel store; every rejecting branch leaves the store untouched. -/
def handleSignalingMessage (msg : SignalingMessage) (fromDeviceId : String) (now : Int)
    (devices : List Device) (channels : List SignalingChannel) :
    Option SigError × List SignalingChannel :=
  if msg.type == "" || msg.toPeerId == "" || msg.data == "" then
    (some SigError.invalidStructure, channels)
  else if !isValidDeviceId fromDeviceId || !isValidDeviceId msg.toPeerId then
    (some SigError.invalidDeviceId, channels)
  else
    match devices.find? (fun d => d.deviceId == fromDeviceId),
          devices.find? (fun d => d.deviceId == msg.toPeerId) with
    | some fromDevice, some toDevice =>
      if fromDevice.networkId == toDevice.networkId then
        (none,
          channelUpsert channels (generateChannelId fromDeviceId msg.toPeerId)
            { type := msg.type
              from' := fromDeviceId
              to' := msg.toPeerId
              data := msg.data
              timestamp := now }
            fromDeviceId msg.toPeerId now)
      else (some SigError.notSameNetwork, channels)
    | _, _ => (some SigError.deviceNotFound, channels)

/-- Condition of the `SignalingChannel.find` query in the drain
endpoint of p2p.ts: the device is a participant and at least one
queued message targets it. -/
def channelHasPendingFor (deviceId : String) (c : SignalingChannel) : Bool :=
  c.participants.contains deviceId && c.messages.any (fun m => m.to' == deviceId)

/-- The GET `/signaling/messages/:deviceId` endpoint of p2p.ts:
collect, channel by channel in store order, every queued message
addressed to the device, then `$pull` exactly those messages from the
matched channels. Returns the delivered messages and the updated
store. -/
def drainMessagesFor (channels : List SignalingChannel) (deviceId : String) :
    List SigMessage × List SignalingChannel :=
  ((channels.filter (channelHasPendingFor deviceId)).flatMap
      (fun c => c.messages.filter (fun m => m.to' == deviceId)),
   channels.map (fun c =>
      if channelHasPendingFor deviceId c then
        { c with messages := c.messages.filter (fun m => !(m.to' == deviceId)) }
      else c))

/-- The `signalingChannelSchema.pre('save')` hook: once more than 50
messages accumulate, keep only the last 25 (`slice(-25)`). Mongoose
runs this document middleware only on `save()`; the relay's
`findOneAndUpdate` append and the drain's `bulkWrite` bypass it. -/
def trimMessages (msgs : List SigMessage) : List SigMessage :=
  if msgs.length > 50 then msgs.drop (msgs.length - 25) else msgs

/-- The `$set` document of the announce upsert, applied to an
existing device record. -/
def announceSet (username networkId signalAddress : String) (capabilities : List String)
    (now : Int) (d : Device) : Device :=
  { d with
    userId := username
    networkId := networkId
    signalAddress := signalAddress
    capabilities := capabilities
    isCoordinator := capabilities.contains "coordinator"
    lastSeen := now
    isOnline := true
    expiresAt := now + 600000 }

/-- The `Device.findOneAndUpdate` upsert of the announce route in
p2p.ts: `$set` every presence field (including recomputing
`isCoordinator` from the announced capabilities alone) and
`$setOnInsert` the identity fields. -/
def announceUpsert (ds : List Device) (peerId username networkId signalAddress : String)
    (capabilities : List String) (now : Int) : List Device :=
  if ds.any (fun d => d.deviceId == peerId) then
    updateFirstWhere (fun d => d.deviceId == peerId)
      (announceSet username networkId signalAddress capabilities now) ds
  else
    ds ++ [{ deviceId := peerId
             userId := username
             networkId := networkId
             signalAddress := signalAddress
             capabilities := capabilities
             isCoordinator := capabilities.contains "coordinator"
             lastSeen := now
             isOnline := true
             expiresAt := now + 600000
             createdAt := now }]

/-- First half of `cleanupStalePresence` in backgroundJobs.ts: mark a
device offline when its `lastSeen` is older than ten minutes. -/
def markOffline (now : Int) (d : Device) : Device :=
  if decide (d.lastSeen < now - 600000) && d.isOnline then { d with isOnline := false } else d

/-- `cleanupStalePresence` from backgroundJobs.ts: mark stale devices
offline, then delete every device that is offline and whose
`lastSeen` is older than 24 hours. -/
def cleanupStalePresence (ds : List Device) (now : Int) : List Device :=
  (ds.map (markOffline now)).filter
    (fun d => !(decide (d.lastSeen < now - 86400000) && !d.isOnline))

/-- TTL expiry declared by the device schema's `expiresAt` index
(`expireAfterSeconds: 0`): MongoDB physically removes every document
whose `expiresAt` lies in the past, independent of any other field. -/
def ttlPurgeDevices (ds : List Device) (now : Int) : List Device :=
  ds.filter (fun d => !decide (d.expiresAt ≤ now))

/-- The in-memory `activeConnections` map of the relay, as an
association list from device identifier to a connection handle. `set`
replaces an existing registration in place. -/
def connSet (m : List (String × Nat)) (k : String) (v : Nat) : List (String × Nat) :=
  if m.any (fun e => e.1 == k) then
    updateFirstWhere (fun e => e.1 == k) (fun _ => (k, v)) m
  else m ++ [(k, v)]

/-- `activeConnections.delete(deviceId)`. -/
def connDelete (m : List (String × Nat)) (k : String) : List (String × Nat) :=
  m.filter (fun e => !(e.1 == k))

/-- `activeConnections.get(deviceId)`. -/
def connGet (m : List (String × Nat)) (k : String) : Option Nat :=
  (m.find? (fun e => e.1 == k)).map (fun e => e.2)

/-- The `ws.on('close')` and `ws.on('error')` handlers installed by
`handleConnection`: they delete the map entry for the closure's
`deviceId`, without checking whether the entry still refers to the
socket that fired the event (the socket argument is unused, exactly as
in the source). -/
def closeHandler (m : List (String × Nat)) (deviceId : String) (_ws : Nat) :
    List (String × Nat) :=
  connDelete m deviceId

/-- Configured minimum of online coordinators per network
(`MIN_COORDINATORS_PER_NETWORK`, default 2). -/
def minCoordinators : Nat := 2

/-- Hard-coded maximum of coordinators per network in
`ensureCoordinators`. -/
def maxCoordinators : Nat := 5

/-- Query `{ networkId, isCoordinator: true, isOnline: true }`. -/
def isOnlineCoordIn (networkId : String) (d : Device) : Bool :=
  d.networkId == networkId && d.isCoordinator && d.isOnline

/-- Query `{ networkId, isOnline: true }`. -/
def isOnlineIn (networkId : String) (d : Device) : Bool :=
  d.networkId == networkId && d.isOnline

/-- Candidate query of the first promotion pass:
`{ networkId, isOnline: true, isCoordinator: false, capabilities: { $in: ['store','relay'] } }`. -/
def isCapableCandidate (networkId : String) (d : Device) : Bool :=
  d.networkId == networkId && d.isOnline && !d.isCoordinator &&
    (d.capabilities.contains "store" || d.capabilities.contains "relay")

/-- Candidate query of the emergency promotion pass:
`{ networkId, isOnline: true, isCoordinator: false }`. -/
def isEmergencyCandidate (networkId : String) (d : Device) : Bool :=
  d.networkId == networkId && d.isOnline && !d.isCoordinator

/-- Demotion query: online coordinators of the network that carry the
`coordinator` capability tag (i.e. were auto-promoted). -/
def isTaggedOnlineCoord (networkId : String) (d : Device) : Bool :=
  d.networkId == networkId && d.isCoordinator && d.isOnline &&
    d.capabilities.contains "coordinator"

/-- `Device.countDocuments({ networkId, isCoordinator: true, isOnline: true })`. -/
def onlineCoordCount (ds : List Device) (networkId : String) : Nat :=
  ds.countP (isOnlineCoordIn networkId)

/-- An `updateMany({ deviceId: { $in: ids } }, ...)` call: apply `g`
to every document whose `deviceId` is in `ids`. -/
def stageMap (g : Device → Device) (ids : List String) (ds : List Device) : List Device :=
  ds.map (fun d => if ids.contains d.deviceId then g d else d)

/-- Update document of the first promotion pass:
`$set { isCoordinator: true }`, `$addToSet { capabilities: 'coordinator' }`. -/
def promoteCapableDev (d : Device) : Device :=
  { d with isCoordinator := true, capabilities := addToSet d.capabilities "coordinator" }

/-- Update document of the emergency promotion pass:
`$set { isCoordinator: true }`,
`$addToSet { capabilities: { $each: ['coordinator', 'relay'] } }`. -/
def promoteEmergencyDev (d : Device) : Device :=
  { d with
    isCoordinator := true
    capabilities := addToSet (addToSet d.capabilities "coordinator") "relay" }

/-- Update document of the demotion pass: `$set { isCoordinator: false }`,
`$pull { capabilities: 'coordinator' }`. -/
def demoteDev (d : Device) : Device :=
  { d with
    isCoordinator := false
    capabilities := d.capabilities.filter (fun c => !(c == "coordinator")) }

/-- `candidates` of the first promotion pass: capable devices of the
network, limited to the shortfall. -/
def stage1Cands (ds : List Device) (networkId : String) : List Device :=
  (ds.filter (isCapableCandidate networkId)).take
    (minCoordinators - onlineCoordCount ds networkId)

/-- Device ids of the first-pass candidates. -/
def stage1Ids (ds : List Device) (networkId : String) : List String :=
  (stage1Cands ds networkId).map (fun d => d.deviceId)

/-- `result.modifiedCount` of the first `updateMany`: documents whose
`deviceId` matched and that the update actually changed. -/
def modifiedCount1 (ds : List Device) (networkId : String) : Nat :=
  ds.countP (fun d => (stage1Ids ds networkId).contains d.deviceId &&
    !(d.isCoordinator && d.capabilities.contains "coordinator"))

/-- Store state after the first promotion pass. -/
def afterStage1 (ds : List Device) (networkId : String) : List Device :=
  stageMap promoteCapableDev (stage1Ids ds networkId) ds

/-- `remainingNeeded = devicesToPromote - result.modifiedCount`. -/
def remaining1 (ds : List Device) (networkId : String) : Nat :=
  (minCoordinators - onlineCoordCount ds networkId) - modifiedCount1 ds networkId

/-- `additionalCandidates` of the emergency pass, queried against the
store as updated by the first pass. -/
def stage2Cands (ds : List Device) (networkId : String) : List Device :=
  ((afterStage1 ds networkId).filter (isEmergencyCandidate networkId)).take
    (remaining1 ds networkId)

/-- Device ids of the emergency candidates. -/
def stage2Ids (ds : List Device) (networkId : String) : List String :=
  (stage2Cands ds networkId).map (fun d => d.deviceId)

/-- Store state after both promotion passes (the emergency pass runs
only when `remainingNeeded > 0`). -/
def afterStage2 (ds : List Device) (networkId : String) : List Device :=
  if 0 < remaining1 ds networkId then
    stageMap promoteEmergencyDev (stage2Ids ds networkId) (afterStage1 ds networkId)
  else afterStage1 ds networkId

/-- Store state after the promotion branch of `ensureCoordinators`
(taken only when the pre-computed coordinator count is below the
minimum). -/
def promotedStage (ds : List Device) (networkId : String) : List Device :=
  if onlineCoordCount ds networkId < minCoordinators then afterStage2 ds networkId else ds

/-- `excessCoordinators`: auto-promoted online coordinators of the
network, least-recently-seen first, limited to the excess. -/
def demoteCands (ds : List Device) (networkId : String) (excess : Nat) : List Device :=
  ((ds.filter (isTaggedOnlineCoord networkId)).mergeSort
      (fun a b => decide (a.lastSeen ≤ b.lastSeen))).take excess

/-- One iteration of the per-network loop body of `ensureCoordinators`:
promote (two passes) when the count is below the minimum, demote
auto-promoted coordinators when the count computed at the start of the
iteration exceeds the maximum. -/
def electNetwork (ds : List Device) (networkId : String) : List Device :=
  if maxCoordinators < onlineCoordCount ds networkId then
    stageMap demoteDev
      ((demoteCands (promotedStage ds networkId) networkId
          (onlineCoordCount ds networkId - maxCoordinators)).map (fun d => d.deviceId))
      (promotedStage ds networkId)
  else promotedStage ds networkId

/-- `Device.distinct('networkId', { isOnline: true })`: the networks
visited by one run of the election job. -/
def activeNetworks (ds : List Device) : List String :=
  ((ds.filter (fun d => d.isOnline)).map (fun d => d.networkId)).dedup

/-- One full run of `ensureCoordinators`: the per-network election
applied to every network that has an online device. -/
def ensureCoordinators (ds : List Device) : List Device :=
  (activeNetworks ds).foldl electNetwork ds

/-- A sequence of signaling sends `(type, data, now)` from the fixed
sender `s` to the fixed destination `d`, threaded through the channel
store. -/
def sendFold (devices : List Device) (s d : String) (sends : List (String × String × Int))
    (chs : List SignalingChannel) : List SignalingChannel :=
  sends.foldl (fun st p => (handleSignalingMessage ⟨p.1, d, p.2.1⟩ s p.2.2 devices st).2) chs

/-- Sample device `peer_a` in network `n1`, used to instantiate
theorems with hypotheses on concrete data. -/
def devA : Device where
  deviceId := "peer_a"
  userId := "alice"
  networkId := "n1"
  signalAddress := "wss://a.example"
  capabilities := []
  isCoordinator := false
  lastSeen := 0
  isOnline := true
  expiresAt := 600000
  createdAt := 0

/-- Sample device `peer_b` in network `n1`. -/
def devB : Device where
  deviceId := "peer_b"
  userId := "bob"
  networkId := "n1"
  signalAddress := "wss://b.example"
  capabilities := []
  isCoordinator := false
  lastSeen := 0
  isOnline := true
  expiresAt := 600000
  createdAt := 0

/-- Sample device `peer_d` in network `n1` (a message destination). -/
def devD : Device where
  deviceId := "peer_d"
  userId := "dora"
  networkId := "n1"
  signalAddress := "wss://d.example"
  capabilities := []
  isCoordinator := false
  lastSeen := 0
  isOnline := true
  expiresAt := 600000
  createdAt := 0

/-- Sample device `peer_x` in the other network `n2`. -/
def devX : Device where
  deviceId := "peer_x"
  userId := "xavier"
  networkId := "n2"
  signalAddress := "wss://x.example"
  capabilities := []
  isCoordinator := false
  lastSeen := 0
  isOnline := true
  expiresAt := 600000
  createdAt := 0

/-- A device that is currently a coordinator (with the matching
capability tag), for exercising the announce upsert. -/
def devCoord : Device where
  deviceId := "peer_x"
  userId := "xavier"
  networkId := "n2"
  signalAddress := "wss://x.example"
  capabilities := ["coordinator"]
  isCoordinator := true
  lastSeen := 0
  isOnline := true
  expiresAt := 600000
  createdAt := 0

/-- An online device whose lastSeen is recent but whose `expiresAt`
has already passed, for exercising the TTL purge. -/
def devTtl : Device where
  deviceId := "peer_y"
  userId := "yara"
  networkId := "n1"
  signalAddress := "wss://y.example"
  capabilities := []
  isCoordinator := false
  lastSeen := 0
  isOnline := true
  expiresAt := 600000
  createdAt := 0

/-- A pre-existing channel between `peer_a` and `peer_d` whose
`expiresAt` records its creation-time expiry. -/
def chAD : SignalingChannel where
  channelId := generateChannelId "peer_a" "peer_d"
  participants := ["peer_a", "peer_d"]
  messages := []
  createdAt := 0
  expiresAt := 1000

/-- A sample stored message. -/
def sampleMsg : SigMessage where
  type := "offer"
  from' := "peer_a"
  to' := "peer_d"
  data := "x"
  timestamp := 0

/-- Channel store after an interleaved send sequence: `peer_a` sends
m1 to `peer_d`. -/
def interleavedSt1 : List SignalingChannel :=
  (handleSignalingMessage ⟨"offer", "peer_d", "m1"⟩ "peer_a" 10 [devA, devB, devD] []).2

/-- Then `peer_b` sends m2 to `peer_d`. -/
def interleavedSt2 : List SignalingChannel :=
  (handleSignalingMessage ⟨"offer", "peer_d", "m2"⟩ "peer_b" 20 [devA, devB, devD]
    interleavedSt1).2

/-- Then `peer_a` sends m3 to `peer_d`. -/
def interleavedSt3 : List SignalingChannel :=
  (handleSignalingMessage ⟨"offer", "peer_d", "m3"⟩ "peer_a" 30 [devA, devB, devD]
    interleavedSt2).2

/-- System invariant maintained by every writer of device records
(announce upsert, both promotion passes, demotion): a device with
`isCoordinator = true` always carries the `coordinator` capability
tag. -/
def coordTagged (ds : List Device) : Prop :=
  ∀ d ∈ ds, d.isCoordinator = true → d.capabilities.contains "coordinator" = true

/-- The promotion policy of one below-minimum election iteration:
capable candidates (store/relay, online, non-coordinator, in-network)
are selected first, up to the shortfall; each selected device ends up
a coordinator with the `coordinator` tag; the emergency pass covers
only the residual shortfall, draws from the remaining online
non-coordinators, and tags its promotions with both `coordinator` and
`relay`. -/
def PromotionPolicy (ds : List Device) (nid : String) : Prop :=
  (∀ c ∈ stage1Cands ds nid,
      c.networkId = nid ∧ c.isOnline = true ∧ c.isCoordinator = false ∧
        (c.capabilities.contains "store" = true ∨ c.capabilities.contains "relay" = true)) ∧
  (stage1Cands ds nid).length
      = min (minCoordinators - onlineCoordCount ds nid)
          ((ds.filter (isCapableCandidate nid)).length) ∧
  (∀ d ∈ ds, (stage1Ids ds nid).contains d.deviceId = true →
      ∃ d' ∈ electNetwork ds nid, d'.deviceId = d.deviceId ∧ d'.isCoordinator = true ∧
        d'.capabilities.contains "coordinator" = true) ∧
  remaining1 ds nid
      = (minCoordinators - onlineCoordCount ds nid) - (stage1Cands ds nid).length ∧
  (remaining1 ds nid = 0 → afterStage2 ds nid = afterStage1 ds nid) ∧
  (∀ c ∈ stage2Cands ds nid, c.networkId = nid ∧ c.isOnline = true ∧ c.isCoordinator = false) ∧
  (∀ d ∈ afterStage1 ds nid, (stage2Ids ds nid).contains d.deviceId = true →
      ∃ d' ∈ electNetwork ds nid, d'.deviceId = d.deviceId ∧ d'.isCoordinator = true ∧
        d'.capabilities.contains "coordinator" = true ∧
        d'.capabilities.contains "relay" = true)

/-- Sample online relay-capable device in network `n1`, a preferred
promotion candidate. -/
def devRelay : Device where
  deviceId := "peer_r"
  userId := "rita"
  networkId := "n1"
  signalAddress := "wss://r.example"
  capabilities := ["relay"]
  isCoordinator := false
  lastSeen := 0
  isOnline := true
  expiresAt := 600000
  createdAt := 0

/-- Updating the first match commutes with searching for it, provided
the update preserves the search predicate. -/
theorem find?_updateFirstWhere {α} (p : α → Bool) (f : α → α) (l : List α)
    (hpf : ∀ a, p a = true → p (f a) = true) :
    (updateFirstWhere p f l).find? p = (l.find? p).map f := by
  induction l with
  | nil => rfl
  | cons a as ih =>
    by_cases h : p a = true
    · rw [show updateFirstWhere p f (a :: as) = f a :: as by simp [updateFirstWhere, h],
        List.find?_cons_of_pos _ (hpf a h), List.find?_cons_of_pos _ h]
      rfl
    · rw [show updateFirstWhere p f (a :: as) = a :: updateFirstWhere p f as by
          simp [updateFirstWhere, h],
        List.find?_cons_of_neg _ h, List.find?_cons_of_neg _ h, ih]

/-- A valid device identifier is never the empty string (so it passes
the JavaScript truthiness test on `toPeerId`). -/
theorem isValidDeviceId_ne_empty {s : String} (h : isValidDeviceId s = true) : s ≠ "" := by
  intro he
  subst he
  exact absurd h (by decide)

/-- C9. There are two distinct unordered pairs of valid device
identifiers whose derived channel keys coincide: the underscore
separator of `generateChannelId` is also a legal identifier character,
so `(peer_a, peer_b_peer_c)` and `(peer_a_peer_b, peer_c)` both map to
the channel key `peer_a_peer_b_peer_c`. -/
theorem channel_key_collision_exists :
    isValidDeviceId "peer_a" = true ∧ isValidDeviceId "peer_b_peer_c" = true ∧
    isValidDeviceId "peer_a_peer_b" = true ∧ isValidDeviceId "peer_c" = true ∧
    "peer_a" ≠ "peer_a_peer_b" ∧ "peer_a" ≠ "peer_c" ∧
    generateChannelId "peer_a" "peer_b_peer_c" = generateChannelId "peer_a_peer_b" "peer_c" := by
  decide

/-- C10. The close/error handler removes the map entry for its device
identifier unconditionally: even when a newer socket has replaced the
registration, the stale socket's close event deregisters the device,
leaving it with no live connection. -/
theorem close_handler_deletes_unconditionally :
    ∀ (m : List (String × Nat)) (d : String) (wsOld wsNew : Nat),
      connGet (closeHandler (connSet m d wsNew) d wsOld) d = none := by
  intro m d wsOld wsNew
  unfold closeHandler connDelete connGet
  have hnone : ((connSet m d wsNew).filter (fun e => !(e.1 == d))).find?
      (fun e => e.1 == d) = none := by
    rw [List.find?_eq_none]
    intro x hx
    have hx2 := (List.mem_filter.mp hx).2
    simp only [Bool.not_eq_true'] at hx2
    simp [hx2]
  rw [hnone]
  rfl

/-- C3 (amended). After any presence announcement, the stored
`isCoordinator` flag equals exactly whether the newly announced
capability list contains `coordinator`; the previously stored value
does not enter the computation. -/
theorem announce_isCoordinator_from_new_capabilities :
    ∀ (ds : List Device) (peerId username networkId signalAddress : String)
      (capabilities : List String) (now : Int),
      ((announceUpsert ds peerId username networkId signalAddress capabilities now).find?
          (fun d => d.deviceId == peerId)).map (fun d => d.isCoordinator)
        = some (capabilities.contains "coordinator") := by
  intro ds peerId username networkId signalAddress capabilities now
  unfold announceUpsert
  by_cases h : ds.any (fun d => d.deviceId == peerId) = true
  · have heq := find?_updateFirstWhere (fun d : Device => d.deviceId == peerId)
      (announceSet username networkId signalAddress capabilities now) ds (fun a ha => ha)
    rw [if_pos h, heq]
    obtain ⟨a, ha, hpa⟩ := List.any_eq_true.mp h
    have hsome : (ds.find? (fun d => d.deviceId == peerId)).isSome :=
      List.find?_isSome.mpr ⟨a, ha, hpa⟩
    obtain ⟨b, hb⟩ := Option.isSome_iff_exists.mp hsome
    rw [hb]
    rfl
  · rw [if_neg h]
    have hnone : ds.find? (fun d => d.deviceId == peerId) = none := by
      rw [List.find?_eq_none]
      intro x hx hpx
      exact h (List.any_eq_true.mpr ⟨x, hx, hpx⟩)
    rw [List.find?_append, hnone, Option.none_or,
      List.find?_cons_of_pos _ (by simp)]
    rfl

/-- C3 counterexample: a device stored as coordinator that re-announces
without the `coordinator` capability has its flag cleared, so the
stored flag is not the OR of the old value and the new request. -/
theorem announce_clears_isCoordinator_cex :
    ((announceUpsert [devCoord] "peer_x" "xavier" "n2" "wss://x.example" [] 1000).find?
        (fun d => d.deviceId == "peer_x")).map (fun d => d.isCoordinator)
      ≠ some (devCoord.isCoordinator || ([] : List String).contains "coordinator") := by
  decide

/-- After the stale-presence marking pass, a record survives the
24-hour purge exactly when its `lastSeen` is within 24 hours: a record
past 24 hours is always marked offline by the same pass, so its
original `isOnline` value cannot protect it. -/
theorem keep_markOffline (now : Int) (d : Device) :
    (!(decide ((markOffline now d).lastSeen < now - 86400000) && !(markOffline now d).isOnline))
      = !decide (d.lastSeen < now - 86400000) := by
  unfold markOffline
  by_cases h24 : d.lastSeen < now - 86400000
  · have h10 : d.lastSeen < now - 600000 := by omega
    by_cases hon : d.isOnline = true <;> simp [h24, h10, hon]
  · by_cases h10 : d.lastSeen < now - 600000 <;> by_cases hon : d.isOnline = true <;>
      simp [h24, h10, hon]

/-- C7 (amended). The presence sweep physically deletes exactly the
records whose `lastSeen` is older than 24 hours (marking them offline
first, so even online records past 24 hours go in one pass), and the
schema's TTL index on `expiresAt` separately deletes every record past
its `expiresAt` — which is only 10 minutes after the last
announcement — regardless of `isOnline` or `lastSeen`. -/
theorem device_deletion_characterization :
    ∀ (ds : List Device) (now : Int),
      cleanupStalePresence ds now
        = (ds.filter (fun d => !decide (d.lastSeen < now - 86400000))).map (markOffline now) ∧
      ttlPurgeDevices ds now = ds.filter (fun d => !decide (d.expiresAt ≤ now)) := by
  intro ds now
  refine ⟨?_, rfl⟩
  unfold cleanupStalePresence
  rw [List.filter_map]
  congr 1
  apply List.filter_congr
  intro x _
  exact keep_markOffline now x

/-- C7 counterexample: `devTtl` is online and was seen well within 24
hours, yet the TTL purge deletes it (its `expiresAt`, ten minutes
after its last announcement, has passed), while the 24-hour sweep
would have kept it. So records are deleted earlier than the claimed
offline-and-24-hours-stale condition. -/
theorem ttl_purge_online_device_cex :
    ttlPurgeDevices [devTtl] 700000 = [] ∧ devTtl.isOnline = true ∧
    ¬(devTtl.lastSeen < 700000 - 86400000) ∧
    cleanupStalePresence [devTtl] 700000 ≠ [] := by
  decide

/-- C8 (amended). The channel upsert performed on every append sets
`expiresAt` only in its insert branch: an append onto an existing
channel record leaves `expiresAt` (and `createdAt`, `participants`)
unchanged and only extends `messages`, while a fresh channel gets
`expiresAt = now + 1h`. -/
theorem channel_expiresAt_only_on_insert (channels : List SignalingChannel)
    (cid : String) (m : SigMessage) (fromId toId : String) (now : Int) :
    (∀ c, channels.find? (fun x => x.channelId == cid) = some c →
      (channelUpsert channels cid m fromId toId now).find? (fun x => x.channelId == cid)
        = some { c with messages := c.messages ++ [m] }) ∧
    (channels.any (fun x => x.channelId == cid) = false →
      (channelUpsert channels cid m fromId toId now).find? (fun x => x.channelId == cid)
        = some { channelId := cid, participants := [fromId, toId], messages := [m],
                 createdAt := now, expiresAt := now + 3600000 }) := by
  constructor
  · intro c hc
    unfold channelUpsert
    have hmem : c ∈ channels := List.mem_of_find?_eq_some hc
    have hpc := List.find?_some hc
    have hany : channels.any (fun x => x.channelId == cid) = true :=
      List.any_eq_true.mpr ⟨c, hmem, hpc⟩
    have heq := find?_updateFirstWhere (fun x : SignalingChannel => x.channelId == cid)
      (appendMsgToChannel m) channels (fun a ha => ha)
    rw [if_pos hany, heq, hc]
    rfl
  · intro hany
    unfold channelUpsert
    rw [if_neg (by simp [hany]),
      List.find?_append,
      List.find?_eq_none.mpr (fun x hx hpx => by
        rw [List.any_eq_false] at hany
        exact hany x hx hpx),
      Option.none_or, List.find?_cons_of_pos _ (by simp)]

/-- C8 witness: appending to the concrete pre-existing channel `chAD`
keeps its old `expiresAt` of 1000 (visible in the updated record). -/
theorem channel_expiresAt_only_on_insert_witness :
    (channelUpsert [chAD] (generateChannelId "peer_a" "peer_d") sampleMsg "peer_a" "peer_d"
        5000000).find? (fun x => x.channelId == generateChannelId "peer_a" "peer_d")
      = some { chAD with messages := chAD.messages ++ [sampleMsg] } :=
  (channel_expiresAt_only_on_insert [chAD] (generateChannelId "peer_a" "peer_d") sampleMsg
      "peer_a" "peer_d" 5000000).1 chAD (by decide)

/-- C8 counterexample: sending a message through the full relay path
onto the existing channel `chAD` at time 5000000 leaves the channel's
`expiresAt` at its old value 1000 instead of refreshing it to
now + 1h, refuting that every append refreshes `expiresAt`. -/
theorem append_existing_channel_keeps_expiresAt_cex :
    (((handleSignalingMessage ⟨"offer", "peer_d", "x"⟩ "peer_a" 5000000 [devA, devD]
        [chAD]).2.find? (fun c => c.channelId == generateChannelId "peer_a" "peer_d")).map
      (fun c => c.expiresAt)) = some 1000 ∧ (1000 : Int) ≠ 5000000 + 3600000 := by
  decide

/-- C1. A structurally valid signaling message whose sender and
destination device records exist but carry different `networkId`
values is rejected with the same-network authorization error, and the
channel store comes back unchanged: nothing is queued. -/
theorem cross_network_send_rejected (msg : SignalingMessage) (fromDeviceId : String)
    (now : Int) (devices : List Device) (channels : List SignalingChannel)
    (fromDevice toDevice : Device)
    (htype : msg.type ≠ "") (hdata : msg.data ≠ "")
    (hvf : isValidDeviceId fromDeviceId = true) (hvt : isValidDeviceId msg.toPeerId = true)
    (hf : devices.find? (fun d => d.deviceId == fromDeviceId) = some fromDevice)
    (ht : devices.find? (fun d => d.deviceId == msg.toPeerId) = some toDevice)
    (hnet : fromDevice.networkId ≠ toDevice.networkId) :
    handleSignalingMessage msg fromDeviceId now devices channels
      = (some SigError.notSameNetwork, channels) := by
  have ht' : (msg.type == "") = false := beq_eq_false_iff_ne.mpr htype
  have hp' : (msg.toPeerId == "") = false := beq_eq_false_iff_ne.mpr (isValidDeviceId_ne_empty hvt)
  have hd' : (msg.data == "") = false := beq_eq_false_iff_ne.mpr hdata
  have hn' : (fromDevice.networkId == toDevice.networkId) = false := beq_eq_false_iff_ne.mpr hnet
  unfold handleSignalingMessage
  rw [ht', hp', hd', hvf, hvt, hf, ht]
  simp [hn']

/-- C1 witness: the concrete cross-network send from `peer_a` (network
n1) to `peer_x` (network n2) is rejected and leaves the empty channel
store empty. -/
theorem cross_network_send_rejected_witness :
    handleSignalingMessage ⟨"offer", "peer_x", "payload"⟩ "peer_a" 0 [devA, devX] []
      = (some SigError.notSameNetwork, []) :=
  cross_network_send_rejected ⟨"offer", "peer_x", "payload"⟩ "peer_a" 0 [devA, devX] []
    devA devX (by decide) (by decide) (by decide) (by decide) (by decide) (by decide) (by decide)

/-- A valid send onto the singleton channel store for the (s, d) pair
appends the stored message to that channel and changes nothing else
(in particular not `expiresAt`). -/
theorem handleSignaling_append_single (s d t dat : String) (now : Int)
    (devices : List Device) (fromDevice toDevice : Device)
    (ms : List SigMessage) (c e : Int)
    (hvs : isValidDeviceId s = true) (hvd : isValidDeviceId d = true)
    (ht : t ≠ "") (hdat : dat ≠ "")
    (hfs : devices.find? (fun x => x.deviceId == s) = some fromDevice)
    (hfd : devices.find? (fun x => x.deviceId == d) = some toDevice)
    (hnet : fromDevice.networkId = toDevice.networkId) :
    handleSignalingMessage ⟨t, d, dat⟩ s now devices
        [⟨generateChannelId s d, [s, d], ms, c, e⟩]
      = (none, [⟨generateChannelId s d, [s, d], ms ++ [⟨t, s, d, dat, now⟩], c, e⟩]) := by
  unfold handleSignalingMessage
  rw [show ((⟨t, d, dat⟩ : SignalingMessage).type == "") = false from beq_eq_false_iff_ne.mpr ht,
    show ((⟨t, d, dat⟩ : SignalingMessage).toPeerId == "") = false from
      beq_eq_false_iff_ne.mpr (isValidDeviceId_ne_empty hvd),
    show ((⟨t, d, dat⟩ : SignalingMessage).data == "") = false from beq_eq_false_iff_ne.mpr hdat,
    hvs]
  rw [show (⟨t, d, dat⟩ : SignalingMessage).toPeerId = d from rfl, hvd, hfs, hfd]
  simp only [Bool.or_false, Bool.false_or, Bool.not_true, Bool.or_self, if_false,
    Bool.false_eq_true, beq_iff_eq, hnet, if_true, ite_true, ite_false, reduceIte]
  unfold channelUpsert updateFirstWhere appendMsgToChannel
  simp

/-- A valid send onto the empty channel store creates the channel for
the (s, d) pair with the message queued and a one-hour expiry. -/
theorem handleSignaling_create (s d t dat : String) (now : Int)
    (devices : List Device) (fromDevice toDevice : Device)
    (hvs : isValidDeviceId s = true) (hvd : isValidDeviceId d = true)
    (ht : t ≠ "") (hdat : dat ≠ "")
    (hfs : devices.find? (fun x => x.deviceId == s) = some fromDevice)
    (hfd : devices.find? (fun x => x.deviceId == d) = some toDevice)
    (hnet : fromDevice.networkId = toDevice.networkId) :
    handleSignalingMessage ⟨t, d, dat⟩ s now devices []
      = (none, [⟨generateChannelId s d, [s, d], [⟨t, s, d, dat, now⟩], now, now + 3600000⟩]) := by
  unfold handleSignalingMessage
  rw [show ((⟨t, d, dat⟩ : SignalingMessage).type == "") = false from beq_eq_false_iff_ne.mpr ht,
    show ((⟨t, d, dat⟩ : SignalingMessage).toPeerId == "") = false from
      beq_eq_false_iff_ne.mpr (isValidDeviceId_ne_empty hvd),
    show ((⟨t, d, dat⟩ : SignalingMessage).data == "") = false from beq_eq_false_iff_ne.mpr hdat,
    hvs]
  rw [show (⟨t, d, dat⟩ : SignalingMessage).toPeerId = d from rfl, hvd, hfs, hfd]
  simp only [Bool.or_false, Bool.false_or, Bool.not_true, Bool.or_self, if_false,
    Bool.false_eq_true, beq_iff_eq, hnet, if_true, ite_true, ite_false, reduceIte]
  unfold channelUpsert
  simp

/-- Folding a list of valid sends from one sender over the singleton
channel store appends the converted messages in send order. -/
theorem sendFold_single (devices : List Device) (s d : String)
    (fromDevice toDevice : Device)
    (hvs : isValidDeviceId s = true) (hvd : isValidDeviceId d = true)
    (hfs : devices.find? (fun x => x.deviceId == s) = some fromDevice)
    (hfd : devices.find? (fun x => x.deviceId == d) = some toDevice)
    (hnet : fromDevice.networkId = toDevice.networkId) :
    ∀ (sends : List (String × String × Int)) (ms : List SigMessage) (c e : Int),
      (∀ p ∈ sends, p.1 ≠ "" ∧ p.2.1 ≠ "") →
      sendFold devices s d sends [⟨generateChannelId s d, [s, d], ms, c, e⟩]
        = [⟨generateChannelId s d, [s, d],
            ms ++ sends.map (fun p => ⟨p.1, s, d, p.2.1, p.2.2⟩), c, e⟩] := by
  intro sends
  induction sends with
  | nil =>
    intro ms c e _
    simp [sendFold]
  | cons p rest ih =>
    intro ms c e hok
    obtain ⟨ht, hdat⟩ := hok p (List.mem_cons_self p rest)
    unfold sendFold
    rw [List.foldl_cons]
    rw [show (handleSignalingMessage ⟨p.1, d, p.2.1⟩ s p.2.2 devices
          [⟨generateChannelId s d, [s, d], ms, c, e⟩]).2
        = [⟨generateChannelId s d, [s, d], ms ++ [⟨p.1, s, d, p.2.1, p.2.2⟩], c, e⟩] from by
      rw [handleSignaling_append_single s d p.1 p.2.1 p.2.2 devices fromDevice toDevice
        ms c e hvs hvd ht hdat hfs hfd hnet]]
    have := ih (ms ++ [⟨p.1, s, d, p.2.1, p.2.2⟩]) c e
      (fun q hq => hok q (List.mem_cons_of_mem p hq))
    unfold sendFold at this
    rw [this]
    simp

/-- Draining a singleton channel store whose queued messages all
target d returns exactly those messages and leaves the channel empty,
so a second drain returns nothing. -/
theorem drain_singleton (cid s d : String) (ms : List SigMessage) (c e : Int)
    (hms : ∀ m ∈ ms, m.to' = d) (hne : ms ≠ []) :
    (drainMessagesFor [⟨cid, [s, d], ms, c, e⟩] d).1 = ms ∧
    (drainMessagesFor (drainMessagesFor [⟨cid, [s, d], ms, c, e⟩] d).2 d).1 = [] := by
  have hallb : ∀ m ∈ ms, (m.to' == d) = true := fun m hm => beq_iff_eq.mpr (hms m hm)
  have hhit : channelHasPendingFor d ⟨cid, [s, d], ms, c, e⟩ = true := by
    unfold channelHasPendingFor
    obtain ⟨m0, hm0⟩ := List.exists_mem_of_ne_nil ms hne
    rw [show ([s, d].contains d) = true from by simp [List.contains, List.elem_iff],
      List.any_eq_true.mpr ⟨m0, hm0, hallb m0 hm0⟩]
    rfl
  have hfa : ms.filter (fun m => m.to' == d) = ms := List.filter_eq_self.mpr hallb
  have hfn : ms.filter (fun m => !(m.to' == d)) = [] :=
    List.filter_eq_nil_iff.mpr (fun a ha => by rw [hallb a ha]; simp)
  constructor
  · unfold drainMessagesFor
    simp [hhit, hfa]
  · have h2 : (drainMessagesFor [⟨cid, [s, d], ms, c, e⟩] d).2
        = [⟨cid, [s, d], [], c, e⟩] := by
      unfold drainMessagesFor
      simp [hhit, hfn]
    rw [h2]
    have hmiss : channelHasPendingFor d ⟨cid, [s, d], [], c, e⟩ = false := by
      unfold channelHasPendingFor
      simp
    unfold drainMessagesFor
    simp [hmiss]

/-- C4 (amended). When every message comes from one sender s, the
round-trip holds exactly as claimed: draining the destination returns
exactly the N sent messages in the original send order, and a second
drain returns nothing. (The counterexample below shows the original
claim fails once two senders interleave, because the drain walks
channel by channel.) -/
theorem drain_single_sender_roundtrip (devices : List Device) (s d : String)
    (fromDevice toDevice : Device) (sends : List (String × String × Int))
    (hvs : isValidDeviceId s = true) (hvd : isValidDeviceId d = true)
    (hfs : devices.find? (fun x => x.deviceId == s) = some fromDevice)
    (hfd : devices.find? (fun x => x.deviceId == d) = some toDevice)
    (hnet : fromDevice.networkId = toDevice.networkId)
    (hok : ∀ p ∈ sends, p.1 ≠ "" ∧ p.2.1 ≠ "") :
    (drainMessagesFor (sendFold devices s d sends []) d).1
        = sends.map (fun p => (⟨p.1, s, d, p.2.1, p.2.2⟩ : SigMessage)) ∧
    (drainMessagesFor (drainMessagesFor (sendFold devices s d sends []) d).2 d).1 = [] := by
  cases sends with
  | nil =>
    constructor <;> simp [sendFold, drainMessagesFor]
  | cons p rest =>
    obtain ⟨ht, hdat⟩ := hok p (List.mem_cons_self p rest)
    have hstep : sendFold devices s d (p :: rest) []
        = sendFold devices s d rest
            [⟨generateChannelId s d, [s, d], [⟨p.1, s, d, p.2.1, p.2.2⟩],
              p.2.2, p.2.2 + 3600000⟩] := by
      unfold sendFold
      rw [List.foldl_cons,
        handleSignaling_create s d p.1 p.2.1 p.2.2 devices fromDevice toDevice
          hvs hvd ht hdat hfs hfd hnet]
    have hrest := sendFold_single devices s d fromDevice toDevice hvs hvd hfs hfd hnet rest
        [⟨p.1, s, d, p.2.1, p.2.2⟩] p.2.2 (p.2.2 + 3600000)
        (fun q hq => hok q (List.mem_cons_of_mem p hq))
    have hfinal : sendFold devices s d (p :: rest) []
        = [⟨generateChannelId s d, [s, d],
            (p :: rest).map (fun q => (⟨q.1, s, d, q.2.1, q.2.2⟩ : SigMessage)),
            p.2.2, p.2.2 + 3600000⟩] := by
      rw [hstep, hrest]
      simp
    rw [hfinal]
    have hms : ∀ m ∈ (p :: rest).map (fun q => (⟨q.1, s, d, q.2.1, q.2.2⟩ : SigMessage)),
        m.to' = d := by
      intro m hm'
      obtain ⟨q, _, rfl⟩ := List.mem_map.mp hm'
      rfl
    exact drain_singleton (generateChannelId s d) s d
      ((p :: rest).map (fun q => (⟨q.1, s, d, q.2.1, q.2.2⟩ : SigMessage)))
      p.2.2 (p.2.2 + 3600000) hms (by simp)

/-- C4 witness: two concrete sends from `peer_a` to `peer_d` drain in
send order and a second drain is empty. -/
theorem drain_single_sender_roundtrip_witness :
    (drainMessagesFor (sendFold [devA, devD] "peer_a" "peer_d"
        [("offer", "1", 10), ("answer", "2", 20)] []) "peer_d").1
      = [⟨"offer", "peer_a", "peer_d", "1", 10⟩, ⟨"answer", "peer_a", "peer_d", "2", 20⟩] ∧
    (drainMessagesFor (drainMessagesFor (sendFold [devA, devD] "peer_a" "peer_d"
        [("offer", "1", 10), ("answer", "2", 20)] []) "peer_d").2 "peer_d").1 = [] :=
  drain_single_sender_roundtrip [devA, devD] "peer_a" "peer_d" devA devD
    [("offer", "1", 10), ("answer", "2", 20)]
    (by decide) (by decide) (by decide) (by decide) (by decide) (by decide)

/-- C4 counterexample: with two senders interleaved (`peer_a`,
`peer_b`, `peer_a` again, timestamps 10, 20, 30), the drain returns
the messages grouped by channel — m1, m3, m2 — not in the original
send order m1, m2, m3; so the round-trip order claim fails as
stated. -/
theorem drain_interleaved_order_cex :
    (drainMessagesFor interleavedSt3 "peer_d").1
        = [⟨"offer", "peer_a", "peer_d", "m1", 10⟩, ⟨"offer", "peer_a", "peer_d", "m3", 30⟩,
           ⟨"offer", "peer_b", "peer_d", "m2", 20⟩] ∧
    (drainMessagesFor interleavedSt3 "peer_d").1
        ≠ [⟨"offer", "peer_a", "peer_d", "m1", 10⟩, ⟨"offer", "peer_b", "peer_d", "m2", 20⟩,
           ⟨"offer", "peer_a", "peer_d", "m3", 30⟩] := by
  decide

/-- Counting split along a Boolean condition. -/
theorem countP_split {α} (l : List α) (p q : α → Bool) :
    l.countP (fun a => q a && p a) + l.countP (fun a => !q a && p a) = l.countP p := by
  induction l with
  | nil => rfl
  | cons a as ih =>
    simp only [List.countP_cons]
    cases hq : q a <;> cases hp : p a <;> simp [hq, hp] <;> omega

/-- Pointwise-equal Boolean predicates count equally. -/
theorem countP_congrB {α} (l : List α) (p q : α → Bool) (h : ∀ a ∈ l, p a = q a) :
    l.countP p = l.countP q :=
  List.countP_congr (fun a ha => by rw [h a ha])

/-- Counting after an `updateMany`-style map: documents whose id
matched count via the updated record, the rest count unchanged. -/
theorem countP_stageMap (g : Device → Device) (ids : List String) (ds : List Device)
    (p : Device → Bool) :
    (stageMap g ids ds).countP p
      = ds.countP (fun d => ids.contains d.deviceId && p (g d))
        + ds.countP (fun d => !ids.contains d.deviceId && p d) := by
  induction ds with
  | nil => rfl
  | cons d ds ih =>
    unfold stageMap at ih ⊢
    simp only [List.map_cons, List.countP_cons, ih]
    cases hc : ids.contains d.deviceId
    · cases hp : p d <;> simp [hc, hp] <;> omega
    · cases hp : p (g d) <;> simp [hc, hp] <;> omega

/-- With globally unique device ids (the schema's unique index), a
document whose id appears among the candidates' ids is itself one of
the candidates. -/
theorem mem_of_id_mem_cands (ds cands : List Device)
    (hid : (ds.map (fun d => d.deviceId)).Nodup)
    (hsub : List.Subperm cands ds)
    (d : Device) (hd : d ∈ ds)
    (hc : (cands.map (fun x => x.deviceId)).contains d.deviceId = true) :
    d ∈ cands := by
  have hmem : d.deviceId ∈ cands.map (fun x => x.deviceId) := by
    simpa [List.contains, List.elem_iff] using hc
  obtain ⟨c, hcmem, hcd⟩ := List.mem_map.mp hmem
  have hcds : c ∈ ds := hsub.subset hcmem
  have hce : c = d := List.inj_on_of_nodup_map hid hcds hd (by rw [hcd])
  rw [← hce]
  exact hcmem

/-- With unique device ids, exactly `cands.length` documents of the
store match the candidates' id list. -/
theorem countP_id_mem (ds cands : List Device)
    (hid : (ds.map (fun d => d.deviceId)).Nodup)
    (hsub : List.Subperm cands ds) :
    ds.countP (fun d => (cands.map (fun x => x.deviceId)).contains d.deviceId)
      = cands.length := by
  apply Nat.le_antisymm
  · rw [List.countP_eq_length_filter]
    have hnmap : ((ds.filter (fun d =>
        (cands.map (fun x => x.deviceId)).contains d.deviceId)).map
          (fun d => d.deviceId)).Nodup :=
      hid.sublist ((List.filter_sublist ds).map (fun d => d.deviceId))
    have hsubset : (ds.filter (fun d =>
        (cands.map (fun x => x.deviceId)).contains d.deviceId)).map (fun d => d.deviceId)
          ⊆ cands.map (fun x => x.deviceId) := by
      intro x hx
      obtain ⟨y, hy, rfl⟩ := List.mem_map.mp hx
      have := (List.mem_filter.mp hy).2
      simpa [List.contains, List.elem_iff] using this
    have := (List.subperm_of_subset hnmap hsubset).length_le
    simpa using this
  · rw [List.countP_eq_length_filter]
    have hfe : cands.filter (fun d =>
        (cands.map (fun x => x.deviceId)).contains d.deviceId) = cands := by
      apply List.filter_eq_self.mpr
      intro c hcmem
      have : c.deviceId ∈ cands.map (fun x => x.deviceId) :=
        List.mem_map.mpr ⟨c, hcmem, rfl⟩
      simpa [List.contains, List.elem_iff] using this
    obtain ⟨l, hperm, hsl⟩ := hsub
    have hfsub : List.Subperm (cands.filter (fun d =>
        (cands.map (fun x => x.deviceId)).contains d.deviceId))
          (ds.filter (fun d => (cands.map (fun x => x.deviceId)).contains d.deviceId)) :=
      ⟨l.filter _, hperm.filter _, hsl.filter _⟩
    have := hfsub.length_le
    rw [hfe] at this
    exact this

/-- `$addToSet` makes the added tag present. -/
theorem contains_addToSet_self (l : List String) (x : String) :
    (addToSet l x).contains x = true := by
  unfold addToSet
  by_cases h : l.contains x = true
  · rw [if_pos h]
    exact h
  · rw [if_neg h]
    simp [List.contains, List.elem_iff]

/-- `$addToSet` keeps every tag that was already present. -/
theorem contains_addToSet_mono (l : List String) (x y : String)
    (h : l.contains y = true) : (addToSet l x).contains y = true := by
  unfold addToSet
  by_cases hx : l.contains x = true
  · rw [if_pos hx]
    exact h
  · rw [if_neg hx]
    simp only [List.contains, List.elem_iff] at h ⊢
    exact List.mem_append_left _ h

/-- `updateMany`-style maps never change device ids. -/
theorem map_deviceId_stageMap (g : Device → Device) (ids : List String) (ds : List Device)
    (hg : ∀ d, (g d).deviceId = d.deviceId) :
    (stageMap g ids ds).map (fun d => d.deviceId) = ds.map (fun d => d.deviceId) := by
  unfold stageMap
  rw [List.map_map]
  apply List.map_congr_left
  intro a _
  simp only [Function.comp]
  split
  · rw [hg]
  · rfl

/-- First-pass candidates are online non-coordinators of the network
advertising store or relay. -/
theorem stage1Cands_spec (ds : List Device) (nid : String) :
    ∀ c ∈ stage1Cands ds nid,
      c.networkId = nid ∧ c.isOnline = true ∧ c.isCoordinator = false ∧
        (c.capabilities.contains "store" = true ∨ c.capabilities.contains "relay" = true) := by
  intro c hc
  have hmem := List.mem_of_mem_take hc
  have hprop := (List.mem_filter.mp hmem).2
  unfold isCapableCandidate at hprop
  simp only [Bool.and_eq_true, Bool.not_eq_true', Bool.or_eq_true, beq_iff_eq] at hprop
  exact ⟨hprop.1.1.1, hprop.1.1.2, hprop.1.2, hprop.2⟩

/-- First-pass candidates are a sub-permutation of the store. -/
theorem stage1Cands_subperm (ds : List Device) (nid : String) :
    List.Subperm (stage1Cands ds nid) ds :=
  ((List.take_sublist _ _).trans (List.filter_sublist ds)).subperm

/-- Emergency candidates are online non-coordinators of the network
(queried against the post-first-pass store). -/
theorem stage2Cands_spec (ds : List Device) (nid : String) :
    ∀ c ∈ stage2Cands ds nid,
      c.networkId = nid ∧ c.isOnline = true ∧ c.isCoordinator = false := by
  intro c hc
  have hmem := List.mem_of_mem_take hc
  have hprop := (List.mem_filter.mp hmem).2
  unfold isEmergencyCandidate at hprop
  simp only [Bool.and_eq_true, Bool.not_eq_true', beq_iff_eq] at hprop
  exact ⟨hprop.1.1, hprop.1.2, hprop.2⟩

/-- Emergency candidates are a sub-permutation of the post-first-pass
store. -/
theorem stage2Cands_subperm (ds : List Device) (nid : String) :
    List.Subperm (stage2Cands ds nid) (afterStage1 ds nid) :=
  ((List.take_sublist _ _).trans (List.filter_sublist _)).subperm

/-- Demotion candidates are tagged online coordinators of the
network. -/
theorem demoteCands_spec (ds : List Device) (nid : String) (excess : Nat) :
    ∀ c ∈ demoteCands ds nid excess, isTaggedOnlineCoord nid c = true := by
  intro c hc
  have hmem := List.mem_of_mem_take hc
  have hmem2 := (List.mergeSort_perm _ _).mem_iff.mp hmem
  exact (List.mem_filter.mp hmem2).2

/-- Demotion candidates are a sub-permutation of the store. -/
theorem demoteCands_subperm (ds : List Device) (nid : String) (excess : Nat) :
    List.Subperm (demoteCands ds nid excess) ds := by
  unfold demoteCands
  have h1 := (List.take_sublist excess
    ((ds.filter (isTaggedOnlineCoord nid)).mergeSort
      (fun a b => decide (a.lastSeen ≤ b.lastSeen)))).subperm
  have h2 := (List.mergeSort_perm (ds.filter (isTaggedOnlineCoord nid))
    (fun a b => decide (a.lastSeen ≤ b.lastSeen))).subperm
  have h3 := ((List.filter_sublist ds) :
    List.Sublist (ds.filter (isTaggedOnlineCoord nid)) ds).subperm
  exact (h1.trans h2).trans h3

/-- Counting effect of one promotion pass: with unique ids, the
online-coordinator count of the network rises by exactly the number of
candidates (each candidate was an online non-coordinator of the
network, and nothing else changes). -/
theorem countP_promote_stage (g : Device → Device) (cands ds : List Device) (nid : String)
    (hid : (ds.map (fun d => d.deviceId)).Nodup) (hsub : List.Subperm cands ds)
    (hg : ∀ d, isOnlineCoordIn nid (g d) = isOnlineIn nid d)
    (hcand : ∀ c ∈ cands, isOnlineIn nid c = true ∧ c.isCoordinator = false) :
    (stageMap g (cands.map (fun x => x.deviceId)) ds).countP (isOnlineCoordIn nid)
      = ds.countP (isOnlineCoordIn nid) + cands.length := by
  rw [countP_stageMap]
  have h1 : ds.countP (fun d => (cands.map (fun x => x.deviceId)).contains d.deviceId
        && isOnlineCoordIn nid (g d))
      = ds.countP (fun d => (cands.map (fun x => x.deviceId)).contains d.deviceId) := by
    apply countP_congrB
    intro a ha
    cases hc : (cands.map (fun x => x.deviceId)).contains a.deviceId
    · simp
    · have hm := mem_of_id_mem_cands ds cands hid hsub a ha hc
      rw [hg]
      simp [(hcand a hm).1]
  have h2 : ds.countP (fun d => !(cands.map (fun x => x.deviceId)).contains d.deviceId
        && isOnlineCoordIn nid d)
      = ds.countP (isOnlineCoordIn nid) := by
    apply countP_congrB
    intro a ha
    cases hp : isOnlineCoordIn nid a
    · simp
    · have hcnt : (cands.map (fun x => x.deviceId)).contains a.deviceId = false := by
        cases hc : (cands.map (fun x => x.deviceId)).contains a.deviceId
        · rfl
        · have hm := mem_of_id_mem_cands ds cands hid hsub a ha hc
          have hncoord := (hcand a hm).2
          unfold isOnlineCoordIn at hp
          simp only [Bool.and_eq_true] at hp
          rw [hp.1.2] at hncoord
          exact hncoord
      rw [hcnt]
      rfl
  rw [h1, h2, countP_id_mem ds cands hid hsub]
  omega

/-- Counting effect of the demotion pass: with unique ids, the count
drops by exactly the number of demoted candidates (each was an online
coordinator of the network). -/
theorem countP_demote_stage (cands ds : List Device) (nid : String)
    (hid : (ds.map (fun d => d.deviceId)).Nodup) (hsub : List.Subperm cands ds)
    (hcand : ∀ c ∈ cands, isOnlineCoordIn nid c = true) :
    (stageMap demoteDev (cands.map (fun x => x.deviceId)) ds).countP (isOnlineCoordIn nid)
      = ds.countP (isOnlineCoordIn nid) - cands.length := by
  rw [countP_stageMap]
  have h1 : ds.countP (fun d => (cands.map (fun x => x.deviceId)).contains d.deviceId
        && isOnlineCoordIn nid (demoteDev d)) = 0 := by
    rw [show (fun d => (cands.map (fun x => x.deviceId)).contains d.deviceId
        && isOnlineCoordIn nid (demoteDev d)) = (fun _ => false) from ?_]
    · simp
    · funext d
      show (_ && isOnlineCoordIn nid (demoteDev d)) = false
      unfold isOnlineCoordIn demoteDev
      simp
  have h3 : ds.countP (fun d => (cands.map (fun x => x.deviceId)).contains d.deviceId
        && isOnlineCoordIn nid d)
      = cands.length := by
    rw [show ds.countP (fun d => (cands.map (fun x => x.deviceId)).contains d.deviceId
          && isOnlineCoordIn nid d)
        = ds.countP (fun d => (cands.map (fun x => x.deviceId)).contains d.deviceId) from ?_]
    · exact countP_id_mem ds cands hid hsub
    · apply countP_congrB
      intro a ha
      cases hc : (cands.map (fun x => x.deviceId)).contains a.deviceId
      · simp
      · have hm := mem_of_id_mem_cands ds cands hid hsub a ha hc
        simp [hcand a hm]
  have hsplit := countP_split ds (isOnlineCoordIn nid)
    (fun d => (cands.map (fun x => x.deviceId)).contains d.deviceId)
  rw [h1, h3] at *
  omega

/-- Helper Bool fact for candidate records. -/
theorem isOnlineIn_of (nid : String) (c : Device) (h1 : c.networkId = nid)
    (h2 : c.isOnline = true) : isOnlineIn nid c = true := by
  unfold isOnlineIn
  rw [h1, h2]
  simp

/-- An `updateMany`-style map leaves any count unchanged when the
update does not affect the counted predicate on the candidates (ids
unique). -/
theorem countP_stageMap_of_cands (g : Device → Device) (cands ds : List Device)
    (hid : (ds.map (fun d => d.deviceId)).Nodup) (hsub : List.Subperm cands ds)
    (p : Device → Bool) (hpg : ∀ c ∈ cands, p (g c) = p c) :
    (stageMap g (cands.map (fun x => x.deviceId)) ds).countP p = ds.countP p := by
  rw [countP_stageMap]
  have h1 : ds.countP (fun d => (cands.map (fun x => x.deviceId)).contains d.deviceId && p (g d))
      = ds.countP (fun d => (cands.map (fun x => x.deviceId)).contains d.deviceId && p d) := by
    apply countP_congrB
    intro a ha
    cases hc : (cands.map (fun x => x.deviceId)).contains a.deviceId
    · rfl
    · have hm := mem_of_id_mem_cands ds cands hid hsub a ha hc
      rw [hpg a hm]
  rw [h1, countP_split]

/-- `modifiedCount` of the first promotion pass equals the number of
candidates: every matched document is a candidate (unique ids) and
every candidate is a non-coordinator, hence actually modified. -/
theorem modifiedCount1_eq (ds : List Device) (nid : String)
    (hid : (ds.map (fun d => d.deviceId)).Nodup) :
    modifiedCount1 ds nid = (stage1Cands ds nid).length := by
  unfold modifiedCount1
  have hcongr : ds.countP (fun d => (stage1Ids ds nid).contains d.deviceId &&
        !(d.isCoordinator && d.capabilities.contains "coordinator"))
      = ds.countP (fun d => (stage1Ids ds nid).contains d.deviceId) := by
    apply countP_congrB
    intro a ha
    cases hc : (stage1Ids ds nid).contains a.deviceId
    · rfl
    · have hm : a ∈ stage1Cands ds nid :=
        mem_of_id_mem_cands ds _ hid (stage1Cands_subperm ds nid) a ha hc
      have hco := (stage1Cands_spec ds nid a hm).2.2.1
      rw [hco]
      rfl
  rw [hcongr]
  exact countP_id_mem ds _ hid (stage1Cands_subperm ds nid)

/-- Count rise of the first promotion pass. -/
theorem onlineCoordCount_afterStage1 (ds : List Device) (nid : String)
    (hid : (ds.map (fun d => d.deviceId)).Nodup) :
    onlineCoordCount (afterStage1 ds nid) nid
      = onlineCoordCount ds nid + (stage1Cands ds nid).length := by
  unfold afterStage1 onlineCoordCount stage1Ids
  exact countP_promote_stage promoteCapableDev (stage1Cands ds nid) ds nid hid
    (stage1Cands_subperm ds nid)
    (fun d => by unfold isOnlineCoordIn isOnlineIn promoteCapableDev; simp)
    (fun c hc => by
      have h := stage1Cands_spec ds nid c hc
      exact ⟨isOnlineIn_of nid c h.1 h.2.1, h.2.2.1⟩)

/-- Device ids are untouched by the first promotion pass. -/
theorem map_deviceId_afterStage1 (ds : List Device) (nid : String) :
    (afterStage1 ds nid).map (fun d => d.deviceId) = ds.map (fun d => d.deviceId) :=
  map_deviceId_stageMap promoteCapableDev _ _ (fun _ => rfl)

/-- Device ids are untouched by both promotion passes. -/
theorem map_deviceId_afterStage2 (ds : List Device) (nid : String) :
    (afterStage2 ds nid).map (fun d => d.deviceId) = ds.map (fun d => d.deviceId) := by
  unfold afterStage2
  by_cases hrem : 0 < remaining1 ds nid
  · rw [if_pos hrem, map_deviceId_stageMap promoteEmergencyDev _ _ (fun _ => rfl),
      map_deviceId_afterStage1]
  · rw [if_neg hrem, map_deviceId_afterStage1]

/-- Device ids are untouched by a whole election iteration. -/
theorem map_deviceId_electNetwork (ds : List Device) (nid : String) :
    (electNetwork ds nid).map (fun d => d.deviceId) = ds.map (fun d => d.deviceId) := by
  have hps : (promotedStage ds nid).map (fun d => d.deviceId) = ds.map (fun d => d.deviceId) := by
    unfold promotedStage
    by_cases hlt : onlineCoordCount ds nid < minCoordinators
    · rw [if_pos hlt, map_deviceId_afterStage2]
    · rw [if_neg hlt]
  unfold electNetwork
  by_cases hgt : maxCoordinators < onlineCoordCount ds nid
  · rw [if_pos hgt, map_deviceId_stageMap demoteDev _ _ (fun _ => rfl), hps]
  · rw [if_neg hgt, hps]

/-- Count rise of both promotion passes together. -/
theorem onlineCoordCount_afterStage2 (ds : List Device) (nid : String)
    (hid : (ds.map (fun d => d.deviceId)).Nodup) :
    onlineCoordCount (afterStage2 ds nid) nid
      = onlineCoordCount ds nid + (stage1Cands ds nid).length
        + (stage2Cands ds nid).length := by
  unfold afterStage2
  by_cases hrem : 0 < remaining1 ds nid
  · rw [if_pos hrem]
    have hid1 : ((afterStage1 ds nid).map (fun d => d.deviceId)).Nodup := by
      rw [map_deviceId_afterStage1]
      exact hid
    have hstep := countP_promote_stage promoteEmergencyDev (stage2Cands ds nid)
      (afterStage1 ds nid) nid hid1 (stage2Cands_subperm ds nid)
      (fun d => by unfold isOnlineCoordIn isOnlineIn promoteEmergencyDev; simp)
      (fun c hc => by
        have h := stage2Cands_spec ds nid c hc
        exact ⟨isOnlineIn_of nid c h.1 h.2.1, h.2.2⟩)
    have h1 := onlineCoordCount_afterStage1 ds nid hid
    unfold onlineCoordCount at h1 ⊢
    unfold stage2Ids
    rw [hstep, h1]
  · rw [if_neg hrem]
    have hrem0 : remaining1 ds nid = 0 := by omega
    have h0 : (stage2Cands ds nid).length = 0 := by
      unfold stage2Cands
      rw [hrem0]
      simp
    rw [onlineCoordCount_afterStage1 ds nid hid, h0]
    omega

/-- The first-pass candidate count never exceeds the shortfall. -/
theorem stage1Cands_length_le (ds : List Device) (nid : String) :
    (stage1Cands ds nid).length ≤ minCoordinators - onlineCoordCount ds nid := by
  unfold stage1Cands
  rw [List.length_take]
  exact Nat.min_le_left _ _

/-- `remainingNeeded` equals shortfall minus first-pass promotions. -/
theorem remaining1_eq (ds : List Device) (nid : String)
    (hid : (ds.map (fun d => d.deviceId)).Nodup) :
    remaining1 ds nid
      = (minCoordinators - onlineCoordCount ds nid) - (stage1Cands ds nid).length := by
  unfold remaining1
  rw [modifiedCount1_eq ds nid hid]

/-- The emergency-pass candidate count never exceeds the residual
shortfall. -/
theorem stage2Cands_length_le (ds : List Device) (nid : String) :
    (stage2Cands ds nid).length ≤ remaining1 ds nid := by
  unfold stage2Cands
  rw [List.length_take]
  exact Nat.min_le_left _ _

/-- Invariant transfer through one `updateMany`-style map. -/
theorem coordTagged_stageMap (g : Device → Device) (ids : List String) (ds : List Device)
    (h : coordTagged ds)
    (hg : ∀ d ∈ ds, (g d).isCoordinator = true →
      (g d).capabilities.contains "coordinator" = true) :
    coordTagged (stageMap g ids ds) := by
  intro d' hd' hco
  obtain ⟨d, hd, heq⟩ := List.mem_map.mp hd'
  by_cases hcc : ids.contains d.deviceId = true
  · rw [if_pos hcc] at heq
    subst heq
    exact hg d hd hco
  · rw [if_neg hcc] at heq
    subst heq
    exact h d hd hco

/-- Every writer of the election keeps the coordinator-tag invariant. -/
theorem coordTagged_electNetwork (ds : List Device) (nid : String)
    (h : coordTagged ds) : coordTagged (electNetwork ds nid) := by
  have h1 : coordTagged (afterStage1 ds nid) :=
    coordTagged_stageMap promoteCapableDev _ ds h
      (fun d _ _ => contains_addToSet_self d.capabilities "coordinator")
  have h2 : coordTagged (afterStage2 ds nid) := by
    unfold afterStage2
    by_cases hrem : 0 < remaining1 ds nid
    · rw [if_pos hrem]
      exact coordTagged_stageMap promoteEmergencyDev _ _ h1
        (fun d _ _ => contains_addToSet_mono _ "relay" "coordinator"
          (contains_addToSet_self d.capabilities "coordinator"))
    · rw [if_neg hrem]
      exact h1
  have hps : coordTagged (promotedStage ds nid) := by
    unfold promotedStage
    by_cases hlt : onlineCoordCount ds nid < minCoordinators
    · rw [if_pos hlt]
      exact h2
    · rw [if_neg hlt]
      exact h
  unfold electNetwork
  by_cases hgt : maxCoordinators < onlineCoordCount ds nid
  · rw [if_pos hgt]
    refine coordTagged_stageMap demoteDev _ _ hps (fun d _ hco => ?_)
    exact absurd hco (by unfold demoteDev; simp)
  · rw [if_neg hgt]
    exact hps

/-- Under the tag invariant, the demotion candidate list has exactly
`excess` entries whenever the store holds more online coordinators
than `excess`. -/
theorem demoteCands_length (ds : List Device) (nid : String) (excess : Nat)
    (hinv : coordTagged ds) (hle : excess ≤ onlineCoordCount ds nid) :
    (demoteCands ds nid excess).length = excess := by
  unfold demoteCands
  rw [List.length_take, (List.mergeSort_perm _ _).length_eq]
  have heq : (ds.filter (isTaggedOnlineCoord nid)).length = onlineCoordCount ds nid := by
    rw [← List.countP_eq_length_filter]
    unfold onlineCoordCount
    apply countP_congrB
    intro a ha
    unfold isTaggedOnlineCoord isOnlineCoordIn
    cases hco : a.isCoordinator
    · simp
    · rw [hinv a ha hco]
      simp
  rw [heq]
  omega

/-- A tagged online coordinator is in particular an online coordinator
of its network. -/
theorem tagged_implies_coord (nid : String) (c : Device)
    (h : isTaggedOnlineCoord nid c = true) :
    c.networkId = nid ∧ isOnlineCoordIn nid c = true := by
  unfold isTaggedOnlineCoord at h
  unfold isOnlineCoordIn
  simp only [Bool.and_eq_true, beq_iff_eq] at h ⊢
  exact ⟨h.1.1.1, ⟨h.1.1.1, h.1.1.2⟩, h.1.2⟩

/-- After one election iteration of its own network, the network's
online-coordinator count lies between 1 (given an online device) and
the maximum (given unique ids and the tag invariant). -/
theorem electNetwork_self_bounds (ds : List Device) (nid : String)
    (hid : (ds.map (fun d => d.deviceId)).Nodup) (hinv : coordTagged ds)
    (hon : 0 < ds.countP (isOnlineIn nid)) :
    1 ≤ onlineCoordCount (electNetwork ds nid) nid ∧
      onlineCoordCount (electNetwork ds nid) nid ≤ maxCoordinators := by
  unfold electNetwork promotedStage
  by_cases hlt : onlineCoordCount ds nid < minCoordinators
  · rw [if_neg (show ¬(maxCoordinators < onlineCoordCount ds nid) by
        unfold minCoordinators at hlt; unfold maxCoordinators; omega),
      if_pos hlt]
    have hc2 := onlineCoordCount_afterStage2 ds nid hid
    have hle1 := stage1Cands_length_le ds nid
    have hle2 := stage2Cands_length_le ds nid
    have hrem := remaining1_eq ds nid hid
    constructor
    · by_cases hz : onlineCoordCount ds nid + (stage1Cands ds nid).length = 0
      · have hc0 : onlineCoordCount ds nid = 0 := by omega
        have hc1 : (stage1Cands ds nid).length = 0 := by omega
        have hrpos : 0 < remaining1 ds nid := by
          rw [hrem, hc1, hc0]
          unfold minCoordinators
          omega
        have honline1 : 0 < (afterStage1 ds nid).countP (isOnlineIn nid) := by
          unfold afterStage1 stage1Ids
          rw [countP_stageMap_of_cands promoteCapableDev (stage1Cands ds nid) ds hid
            (stage1Cands_subperm ds nid) (isOnlineIn nid) (fun c _ => rfl)]
          exact hon
        obtain ⟨d1, hd1, hd1on⟩ := List.countP_pos_iff.mp honline1
        have hzero : onlineCoordCount (afterStage1 ds nid) nid = 0 := by
          rw [onlineCoordCount_afterStage1 ds nid hid, hc0, hc1]
        have hno : ∀ x ∈ afterStage1 ds nid, ¬ isOnlineCoordIn nid x = true := by
          intro x hx
          exact List.countP_eq_zero.mp hzero x hx
        unfold isOnlineIn at hd1on
        rw [Bool.and_eq_true] at hd1on
        obtain ⟨hn, ho⟩ := hd1on
        have hcoord : d1.isCoordinator = false := by
          cases hcc : d1.isCoordinator
          · rfl
          · exfalso
            apply hno d1 hd1
            unfold isOnlineCoordIn
            rw [hn, hcc, ho]
            rfl
        have hd1e : isEmergencyCandidate nid d1 = true := by
          unfold isEmergencyCandidate
          rw [hn, ho, hcoord]
          rfl
        have hfpos : 0 < ((afterStage1 ds nid).filter (isEmergencyCandidate nid)).length := by
          rw [← List.countP_eq_length_filter]
          exact List.countP_pos_iff.mpr ⟨d1, hd1, hd1e⟩
        have hc2pos : 0 < (stage2Cands ds nid).length := by
          unfold stage2Cands
          rw [List.length_take]
          exact Nat.lt_min.mpr ⟨hrpos, hfpos⟩
        rw [hc2]
        omega
      · rw [hc2]
        omega
    · rw [hc2]
      rw [hrem] at hle2
      unfold minCoordinators at hlt hle1 hle2
      unfold maxCoordinators
      omega
  · rw [if_neg hlt]
    by_cases hgt : maxCoordinators < onlineCoordCount ds nid
    · rw [if_pos hgt]
      have hlen := demoteCands_length ds nid (onlineCoordCount ds nid - maxCoordinators) hinv
        (by omega)
      have hdem := countP_demote_stage
        (demoteCands ds nid (onlineCoordCount ds nid - maxCoordinators)) ds nid hid
        (demoteCands_subperm ds nid _)
        (fun c hc => (tagged_implies_coord nid c (demoteCands_spec ds nid _ c hc)).2)
      unfold onlineCoordCount at hdem hlen hgt ⊢
      rw [hdem, hlen]
      unfold maxCoordinators at hgt ⊢
      constructor <;> omega
    · rw [if_neg hgt]
      unfold minCoordinators at hlt
      unfold maxCoordinators at hgt ⊢
      constructor <;> omega

/-- One election iteration never changes any network's online-device
population. -/
theorem countP_isOnlineIn_electNetwork (ds : List Device) (nid m : String)
    (hid : (ds.map (fun d => d.deviceId)).Nodup) :
    (electNetwork ds nid).countP (isOnlineIn m) = ds.countP (isOnlineIn m) := by
  have h1 : (afterStage1 ds nid).countP (isOnlineIn m) = ds.countP (isOnlineIn m) := by
    unfold afterStage1 stage1Ids
    exact countP_stageMap_of_cands promoteCapableDev _ ds hid
      (stage1Cands_subperm ds nid) _ (fun c _ => rfl)
  have hid1 : ((afterStage1 ds nid).map (fun d => d.deviceId)).Nodup := by
    rw [map_deviceId_afterStage1]
    exact hid
  have h2 : (afterStage2 ds nid).countP (isOnlineIn m) = ds.countP (isOnlineIn m) := by
    unfold afterStage2
    by_cases hrem : 0 < remaining1 ds nid
    · rw [if_pos hrem]
      unfold stage2Ids
      rw [countP_stageMap_of_cands promoteEmergencyDev _ _ hid1
        (stage2Cands_subperm ds nid) (isOnlineIn m) (fun c _ => rfl)]
      exact h1
    · rw [if_neg hrem]
      exact h1
  have hps : (promotedStage ds nid).countP (isOnlineIn m) = ds.countP (isOnlineIn m) := by
    unfold promotedStage
    by_cases hlt : onlineCoordCount ds nid < minCoordinators
    · rw [if_pos hlt]
      exact h2
    · rw [if_neg hlt]
  have hidps : ((promotedStage ds nid).map (fun d => d.deviceId)).Nodup := by
    unfold promotedStage
    by_cases hlt : onlineCoordCount ds nid < minCoordinators
    · rw [if_pos hlt, map_deviceId_afterStage2]
      exact hid
    · rw [if_neg hlt]
      exact hid
  unfold electNetwork
  by_cases hgt : maxCoordinators < onlineCoordCount ds nid
  · rw [if_pos hgt]
    rw [countP_stageMap_of_cands demoteDev _ _ hidps
      (demoteCands_subperm (promotedStage ds nid) nid _) (isOnlineIn m) (fun c _ => rfl)]
    exact hps
  · rw [if_neg hgt]
    exact hps

/-- One election iteration of network `nid` leaves every other
network's online-coordinator count unchanged (ids unique; candidates
all live in `nid`). -/
theorem onlineCoordCount_electNetwork_other (ds : List Device) (nid m : String)
    (hid : (ds.map (fun d => d.deviceId)).Nodup) (hm : m ≠ nid) :
    onlineCoordCount (electNetwork ds nid) m = onlineCoordCount ds m := by
  have hfalse : ∀ c : Device, c.networkId = nid → (c.networkId == m) = false := by
    intro c hc
    rw [hc]
    exact beq_eq_false_iff_ne.mpr (Ne.symm hm)
  have h1 : (afterStage1 ds nid).countP (isOnlineCoordIn m) = ds.countP (isOnlineCoordIn m) := by
    unfold afterStage1 stage1Ids
    apply countP_stageMap_of_cands promoteCapableDev _ ds hid (stage1Cands_subperm ds nid)
    intro c hc
    have hnet := (stage1Cands_spec ds nid c hc).1
    unfold isOnlineCoordIn promoteCapableDev
    simp [hfalse c hnet]
  have hid1 : ((afterStage1 ds nid).map (fun d => d.deviceId)).Nodup := by
    rw [map_deviceId_afterStage1]
    exact hid
  have h2 : (afterStage2 ds nid).countP (isOnlineCoordIn m)
      = ds.countP (isOnlineCoordIn m) := by
    unfold afterStage2
    by_cases hrem : 0 < remaining1 ds nid
    · rw [if_pos hrem]
      unfold stage2Ids
      rw [countP_stageMap_of_cands promoteEmergencyDev _ _ hid1
        (stage2Cands_subperm ds nid) _ ?_]
      · exact h1
      · intro c hc
        have hnet := (stage2Cands_spec ds nid c hc).1
        unfold isOnlineCoordIn promoteEmergencyDev
        simp [hfalse c hnet]
    · rw [if_neg hrem]
      exact h1
  have hps : (promotedStage ds nid).countP (isOnlineCoordIn m)
      = ds.countP (isOnlineCoordIn m) := by
    unfold promotedStage
    by_cases hlt : onlineCoordCount ds nid < minCoordinators
    · rw [if_pos hlt]
      exact h2
    · rw [if_neg hlt]
  have hidps : ((promotedStage ds nid).map (fun d => d.deviceId)).Nodup := by
    unfold promotedStage
    by_cases hlt : onlineCoordCount ds nid < minCoordinators
    · rw [if_pos hlt, map_deviceId_afterStage2]
      exact hid
    · rw [if_neg hlt]
      exact hid
  unfold onlineCoordCount
  unfold electNetwork
  by_cases hgt : maxCoordinators < onlineCoordCount ds nid
  · rw [if_pos hgt]
    rw [countP_stageMap_of_cands demoteDev _ _ hidps
      (demoteCands_subperm (promotedStage ds nid) nid _) _ ?_]
    · exact hps
    · intro c hc
      have hnet := (tagged_implies_coord nid c (demoteCands_spec _ nid _ c hc)).1
      unfold isOnlineCoordIn demoteDev
      simp [hfalse c hnet]
  · rw [if_neg hgt]
    exact hps

/-- Folding the per-network election over any list of networks keeps
unique ids and the tag invariant, never changes online populations,
leaves unvisited networks' coordinator counts alone, and lands every
visited network with online devices in the [1, max] window. -/
theorem ensure_fold (nids : List String) : ∀ ds : List Device,
    (ds.map (fun d => d.deviceId)).Nodup → coordTagged ds →
    (∀ m, (nids.foldl electNetwork ds).countP (isOnlineIn m) = ds.countP (isOnlineIn m)) ∧
    (∀ m, m ∉ nids →
      onlineCoordCount (nids.foldl electNetwork ds) m = onlineCoordCount ds m) ∧
    (∀ m ∈ nids, 0 < ds.countP (isOnlineIn m) →
      1 ≤ onlineCoordCount (nids.foldl electNetwork ds) m ∧
        onlineCoordCount (nids.foldl electNetwork ds) m ≤ maxCoordinators) := by
  induction nids with
  | nil =>
    intro ds _ _
    exact ⟨fun m => rfl, fun m _ => rfl, fun m hm => absurd hm (List.not_mem_nil m)⟩
  | cons n rest ih =>
    intro ds hid hinv
    have hid' : ((electNetwork ds n).map (fun d => d.deviceId)).Nodup := by
      rw [map_deviceId_electNetwork]
      exact hid
    have hinv' := coordTagged_electNetwork ds n hinv
    obtain ⟨ihOn, ihOther, ihSelf⟩ := ih (electNetwork ds n) hid' hinv'
    refine ⟨?_, ?_, ?_⟩
    · intro m
      rw [List.foldl_cons, ihOn m, countP_isOnlineIn_electNetwork ds n m hid]
    · intro m hm
      have hm1 : m ≠ n := by
        intro he
        exact hm (he ▸ List.mem_cons_self n rest)
      have hm2 : m ∉ rest := by
        intro he
        exact hm (List.mem_cons_of_mem n he)
      rw [List.foldl_cons, ihOther m hm2, onlineCoordCount_electNetwork_other ds n m hid hm1]
    · intro m hm hq
      rcases List.mem_cons.mp hm with he | hr
      · subst he
        by_cases hrr : m ∈ rest
        · have hb := ihSelf m hrr (by
            rw [countP_isOnlineIn_electNetwork ds m m hid]
            exact hq)
          rw [List.foldl_cons]
          exact hb
        · have hself := electNetwork_self_bounds ds m hid hinv hq
          have hpres := ihOther m hrr
          rw [List.foldl_cons, hpres]
          exact hself
      · have hb := ihSelf m hr (by
          rw [countP_isOnlineIn_electNetwork ds n m hid]
          exact hq)
        rw [List.foldl_cons]
        exact hb

/-- C5. After a full run of the coordinator-election job on a store
with unique device ids where every coordinator carries the
`coordinator` tag (both are invariants maintained by all writers),
every network with at least one online device ends with between 1 and
`maxCoordinators` online coordinators. -/
theorem elector_bounds_online_coordinators (ds : List Device)
    (hid : (ds.map (fun d => d.deviceId)).Nodup) (hinv : coordTagged ds) :
    ∀ nid, (∃ d ∈ ds, d.networkId = nid ∧ d.isOnline = true) →
      1 ≤ onlineCoordCount (ensureCoordinators ds) nid ∧
        onlineCoordCount (ensureCoordinators ds) nid ≤ maxCoordinators := by
  intro nid hex
  obtain ⟨d, hd, hdn, hdo⟩ := hex
  have hq : 0 < ds.countP (isOnlineIn nid) :=
    List.countP_pos_iff.mpr ⟨d, hd, isOnlineIn_of nid d hdn hdo⟩
  have hmem : nid ∈ activeNetworks ds := by
    unfold activeNetworks
    rw [List.mem_dedup]
    exact List.mem_map.mpr ⟨d, List.mem_filter.mpr ⟨hd, hdo⟩, hdn⟩
  exact (ensure_fold (activeNetworks ds) ds hid hinv).2.2 nid hmem hq

/-- C5 witness: a single online non-coordinator device in `n1` gets
emergency-promoted, so the run ends with exactly one online
coordinator — within [1, 5]. -/
theorem elector_bounds_online_coordinators_witness :
    1 ≤ onlineCoordCount (ensureCoordinators [devA]) "n1" ∧
      onlineCoordCount (ensureCoordinators [devA]) "n1" ≤ maxCoordinators :=
  elector_bounds_online_coordinators [devA] (by decide)
    (by unfold coordTagged; decide) "n1" ⟨devA, by decide, by decide, by decide⟩

/-- C6. In a below-minimum network, one election iteration follows the
two-tier promotion policy: capable (store/relay) online
non-coordinators first, up to the shortfall, each promoted with the
`coordinator` tag; the emergency pass runs only for the residual
shortfall, draws from the remaining online non-coordinators, and tags
its promotions with both `coordinator` and `relay`. -/
theorem elector_promotion_policy (ds : List Device) (nid : String)
    (hid : (ds.map (fun d => d.deviceId)).Nodup)
    (hlt : onlineCoordCount ds nid < minCoordinators) :
    PromotionPolicy ds nid := by
  have helect : electNetwork ds nid = afterStage2 ds nid := by
    unfold electNetwork promotedStage
    rw [if_pos hlt,
      if_neg (show ¬(maxCoordinators < onlineCoordCount ds nid) by
        unfold minCoordinators at hlt; unfold maxCoordinators; omega)]
  unfold PromotionPolicy
  refine ⟨stage1Cands_spec ds nid, ?_, ?_, remaining1_eq ds nid hid, ?_,
    stage2Cands_spec ds nid, ?_⟩
  · unfold stage1Cands
    rw [List.length_take]
  · intro d hd hc
    rw [helect]
    unfold afterStage2
    have he1 : promoteCapableDev d ∈ afterStage1 ds nid := by
      unfold afterStage1 stageMap
      exact List.mem_map.mpr ⟨d, hd, if_pos hc⟩
    by_cases hrem : 0 < remaining1 ds nid
    · rw [if_pos hrem]
      by_cases hc2 : (stage2Ids ds nid).contains (promoteCapableDev d).deviceId = true
      · refine ⟨promoteEmergencyDev (promoteCapableDev d), ?_, rfl, rfl, ?_⟩
        · unfold stageMap
          exact List.mem_map.mpr ⟨promoteCapableDev d, he1, if_pos hc2⟩
        · exact contains_addToSet_mono _ "relay" "coordinator"
            (contains_addToSet_mono _ "coordinator" "coordinator"
              (contains_addToSet_self d.capabilities "coordinator"))
      · refine ⟨promoteCapableDev d, ?_, rfl, rfl, ?_⟩
        · unfold stageMap
          exact List.mem_map.mpr ⟨promoteCapableDev d, he1, if_neg hc2⟩
        · exact contains_addToSet_self d.capabilities "coordinator"
    · rw [if_neg hrem]
      exact ⟨promoteCapableDev d, he1, rfl, rfl,
        contains_addToSet_self d.capabilities "coordinator"⟩
  · intro h0
    unfold afterStage2
    rw [if_neg (by omega)]
  · intro d hd hc
    by_cases hrem : 0 < remaining1 ds nid
    · rw [helect]
      unfold afterStage2
      rw [if_pos hrem]
      refine ⟨promoteEmergencyDev d, ?_, rfl, rfl, ?_, ?_⟩
      · unfold stageMap
        exact List.mem_map.mpr ⟨d, hd, if_pos hc⟩
      · exact contains_addToSet_mono _ "relay" "coordinator"
          (contains_addToSet_self d.capabilities "coordinator")
      · exact contains_addToSet_self _ "relay"
    · exfalso
      have h0 : remaining1 ds nid = 0 := by omega
      have hids : stage2Ids ds nid = [] := by
        unfold stage2Ids stage2Cands
        rw [h0]
        simp
      rw [hids] at hc
      simp [List.contains] at hc

/-- C6 witness: in `n1` with one relay-capable device and one plain
device and no coordinators, the policy holds concretely (the
relay-capable device is the sole first-pass candidate; one emergency
slot remains). -/
theorem elector_promotion_policy_witness : PromotionPolicy [devRelay, devB] "n1" :=
  elector_promotion_policy [devRelay, devB] "n1" (by decide) (by decide)

/-- C2 (code bug): the program's append path never trims. Fifty-one
valid sends from `peer_a` to `peer_d` through the relay leave the
channel holding all 51 messages — past the claimed 50-message cap —
because the append is a `findOneAndUpdate` `$push` and Mongoose fires
the schema's pre-save trim hook only on `save()`, which the relay and
the drain never call (the one `channel.save()` in the code base runs
in the cleanup job after slicing to 10 messages). The schema hook
itself (`trimMessages`), had it run on that state, would have cut the
list to 25, as the claim intends. -/
theorem channel_append_path_never_trims :
    ∃ ms : List SigMessage,
      sendFold [devA, devD] "peer_a" "peer_d"
          (List.replicate 51 ("offer", "x", (0 : Int))) []
        = [⟨generateChannelId "peer_a" "peer_d", ["peer_a", "peer_d"], ms, 0, 0 + 3600000⟩] ∧
      50 < ms.length ∧ (trimMessages ms).length = 25 := by
  refine ⟨(List.replicate 51 ("offer", "x", (0 : Int))).map
      (fun q => (⟨q.1, "peer_a", "peer_d", q.2.1, q.2.2⟩ : SigMessage)), ?_, ?_, ?_⟩
  · have hok : ∀ q ∈ List.replicate 50 ("offer", "x", (0 : Int)),
        q.1 ≠ "" ∧ q.2.1 ≠ "" := by
      intro q hq
      rw [List.eq_of_mem_replicate hq]
      exact ⟨by decide, by decide⟩
    have hstep : sendFold [devA, devD] "peer_a" "peer_d"
        (("offer", "x", (0 : Int)) :: List.replicate 50 ("offer", "x", (0 : Int))) []
        = sendFold [devA, devD] "peer_a" "peer_d"
            (List.replicate 50 ("offer", "x", (0 : Int)))
            [⟨generateChannelId "peer_a" "peer_d", ["peer_a", "peer_d"],
              [⟨"offer", "peer_a", "peer_d", "x", 0⟩], 0, 0 + 3600000⟩] := by
      unfold sendFold
      rw [List.foldl_cons,
        handleSignaling_create "peer_a" "peer_d" "offer" "x" 0 [devA, devD] devA devD
          (by decide) (by decide) (by decide) (by decide) (by decide) (by decide) (by decide)]
    have hrest := sendFold_single [devA, devD] "peer_a" "peer_d" devA devD
      (by decide) (by decide) (by decide) (by decide) (by decide)
      (List.replicate 50 ("offer", "x", (0 : Int)))
      [⟨"offer", "peer_a", "peer_d", "x", 0⟩] 0 (0 + 3600000) hok
    rw [show List.replicate 51 ("offer", "x", (0 : Int))
        = ("offer", "x", (0 : Int)) :: List.replicate 50 ("offer", "x", (0 : Int)) from rfl,
      hstep, hrest]
    simp
  · simp
  · unfold trimMessages
    rw [if_pos (by simp)]
    rw [List.length_drop]
    simp
